import Mathlib

/-!
# StreaMan: the recording registry (`record.go`) and `buildModel` (`main.go`)

A shallow embedding of the recorder of `src/record.go`.

* Go maps `map[string]*recording` are association lists from ids to pointers; `delete` and
  assignment are `mapDelete` and `mapSet`, a lookup of an absent key gives `none` (Go: `nil`).
* `*recording` pointers are addresses into a store `cells`; `&recording{...}` allocates the
  address `next`.  The aliasing between a map entry and the supervisor goroutine that captured
  the same pointer is therefore explicit.
* The mutex makes `Record`, `Stop`, `RemoveError` and lines 65-74 of the goroutine atomic; each
  is one function on the state.  The goroutine `go func(id, rec)` is a `Task` with a program
  counter: before `rec.cmd.Start()`, blocked in `rec.cmd.Wait()`, or holding its `err` and
  about to take the lock.
  `cmd.Start()` runs outside the mutex; its write of `cmd.Process` is taken as one step.
* The environment is passed in: the two readings of `time.Now()`, the string drawn by
  `uuid.NewV4()`, the result of `cmd.Start()`, of `cmd.Wait()` and of `syscall.Kill`, and the
  standard library's `path.Join`.
* In `record.go` the transcode flag is the field `encode` of the recorder, set by
  `NewRecorder`.
* `buildModel` gets the result of `ioutil.ReadDir`, the order in which `range` visits a map,
  its clock readings and the library renderings it calls from a `BuildEnv`.
-/

namespace StreaMan

/-! ## Go values -/

/-- A non-nil Go `error` value; `msg` is what `Error()` returns.  A nil `error` is `none`. -/
structure GoError where
  msg : String
deriving DecidableEq

/-- A wall-clock reading (`time.Time`), by its civil fields in the local zone. -/
structure Time where
  year : Nat
  month : Nat
  day : Nat
  hour : Nat
  minute : Nat
  second : Nat
  nsec : Nat
deriving DecidableEq

/-- Decimal rendering of `n`, zero-padded on the left to at least `width` digits
(the standard library's `appendInt`). -/
def zeroPad (width n : Nat) : String :=
  String.mk (List.replicate (width - (Nat.repr n).length) '0') ++ Nat.repr n

/-- The method `Time.Format` at the layout `"20060102_150405"` used on line 43 of `record.go`:
year (4 digits), month, day, an underscore, hour, minute, second (2 digits each). -/
def Time.Format20060102_150405 (t : Time) : String :=
  zeroPad 4 t.year ++ zeroPad 2 t.month ++ zeroPad 2 t.day ++ "_" ++
    zeroPad 2 t.hour ++ zeroPad 2 t.minute ++ zeroPad 2 t.second

/-- An `os.Process`. -/
structure Process where
  Pid : Int
deriving DecidableEq

/-- The `syscall.SysProcAttr` fields the recorder sets. -/
structure SysProcAttr where
  Setpgid : Bool
deriving DecidableEq

/-- An `exec.Cmd`.  `Process` is nil until `Start` has succeeded. -/
structure Cmd where
  Path : String
  Args : List String
  SysProcAttr : Option SysProcAttr
  Process : Option Process
deriving DecidableEq

/-- The constructor `exec.Command(name, arg...)` for a `name` that contains a path separator. -/
def Command (name : String) (arg : List String) : Cmd :=
  { Path := name, Args := name :: arg, SysProcAttr := none, Process := none }

/-! ## Data model of `record.go` -/

/-- The struct `recording` (lines 14-19). -/
structure recording where
  filename : String
  cmd : Option Cmd
  startTime : Time
  err : Option GoError
deriving DecidableEq

/-- A `*recording`. -/
abbrev Ptr := Nat

/-- The Go expression `m[k]`; `none` is the nil a missing key yields. -/
def mapGet {α : Type} : List (String × α) → String → Option α
  | [], _ => none
  | (k', v) :: m, k => if k' = k then some v else mapGet m k

/-- The Go statement `delete(m, k)`. -/
def mapDelete {α : Type} : List (String × α) → String → List (String × α)
  | [], _ => []
  | (k', v) :: m, k => if k' = k then mapDelete m k else (k', v) :: mapDelete m k

/-- The Go statement `m[k] = v`. -/
def mapSet {α : Type} (m : List (String × α)) (k : String) (v : α) : List (String × α) :=
  (k, v) :: mapDelete m k

/-- The keys of a map. -/
def mapKeys {α : Type} (m : List (String × α)) : List String :=
  m.map Prod.fst

/-- The struct `recorder` (lines 21-27), without its mutex. -/
structure recorder where
  dataDir : String
  encode : Bool
  running : List (String × Ptr)
  errored : List (String × Ptr)

/-- Where a supervisor goroutine (lines 60-75) stands. -/
inductive PC where
  | atStart
  | atWait
  | atLock (err : Option GoError)
deriving DecidableEq

/-- A supervisor goroutine with its captured arguments `id` and `rec`. -/
structure Task where
  id : String
  ptr : Ptr
  pc : PC
deriving DecidableEq

/-- The program state: the recorder, the store of `recording` objects, the live supervisor
goroutines, and the ids `uuid.NewV4()` has produced so far. -/
structure World where
  r : recorder
  cells : Ptr → recording
  next : Ptr
  tasks : List Task
  drawn : List String

/-- Assignment through a pointer. -/
def setCell (cells : Ptr → recording) (p : Ptr) (v : recording) : Ptr → recording :=
  fun q => if q = p then v else cells q

/-- The zero value of `recording`. -/
def recording.zero : recording :=
  { filename := "", cmd := none, startTime := ⟨0, 0, 0, 0, 0, 0, 0⟩, err := none }

/-- The function `NewRecorder` (lines 29-36). -/
def NewRecorder (dataDir : String) (encode : Bool) : recorder :=
  { dataDir := dataDir, encode := encode, running := [], errored := [] }

/-- The program state right after `NewRecorder`. -/
def World.init (dataDir : String) (encode : Bool) : World :=
  { r := NewRecorder dataDir encode, cells := fun _ => recording.zero, next := 0,
    tasks := [], drawn := [] }

/-! ## Operations of `record.go` -/

/-- The method `Record` (lines 38-76).  `join` is `path.Join`, `now1` and `now2` are the
readings of `time.Now()` on lines 43 and 44, `id` is `uuid.NewV4().String()`. -/
def Record (join : String → String → String) (w : World) (channel : String)
    (now1 now2 : Time) (id : String) : World :=
  let rec0 : recording :=
    { filename := channel ++ "_" ++ now1.Format20060102_150405 ++ ".ts"
      cmd := none
      startTime := now2
      err := none }
  let fullPath := join w.r.dataDir rec0.filename
  let encodeParams := if w.r.encode then "-vcodec libx265 -crf 28" else "-vcodec copy"
  let recordCmdline :=
    "streamlink https://twitch.tv/" ++ channel ++
      " best -O | ffmpeg -i pipe:0 -ss 00:00:20.0 " ++ encodeParams ++
      " -acodec copy \"" ++ fullPath ++ "\""
  let cmd : Cmd :=
    { Command "/bin/bash" ["-c", recordCmdline] with SysProcAttr := some { Setpgid := true } }
  let rec1 : recording := { rec0 with cmd := some cmd }
  { r := { w.r with running := mapSet w.r.running id w.next }
    cells := setCell w.cells w.next rec1
    next := w.next + 1
    tasks := { id := id, ptr := w.next, pc := PC.atStart } :: w.tasks
    drawn := id :: w.drawn }

/-- Move the goroutine that captured `p` to `pc`. -/
def setPC (tasks : List Task) (p : Ptr) (pc : PC) : List Task :=
  tasks.map (fun t => if t.ptr = p then { t with pc := pc } else t)

/-- Line 61 of the goroutine, `err := rec.cmd.Start()`, with the result of the launch.  A
successful `Start` stores the process in `cmd.Process`; a failed one leaves it nil.  `none` is
the nil dereference of a missing `rec.cmd`. -/
def supervisorStart (w : World) (t : Task) (res : Except GoError Process) : Option World :=
  match (w.cells t.ptr).cmd with
  | none => none
  | some c =>
    match res with
    | Except.ok proc =>
      some { w with
        cells := setCell w.cells t.ptr
          { w.cells t.ptr with cmd := some { c with Process := some proc } }
        tasks := setPC w.tasks t.ptr PC.atWait }
    | Except.error e => some { w with tasks := setPC w.tasks t.ptr (PC.atLock (some e)) }

/-- Line 63 of the goroutine, `err = rec.cmd.Wait()`, returning `res`. -/
def supervisorWait (w : World) (t : Task) (res : Option GoError) : World :=
  { w with tasks := setPC w.tasks t.ptr (PC.atLock res) }

/-- Lines 65-74 of the goroutine, the exit transition, for the captured `id` and `rec = p`
and the outcome `err`; the goroutine then ends. -/
def supervisorExit (w : World) (id : String) (p : Ptr) (err : Option GoError) : World :=
  let running := mapDelete w.r.running id
  let cells := setCell w.cells p { w.cells p with cmd := none }
  let tasks := w.tasks.filter (fun t => decide (t.ptr ≠ p))
  match err with
  | none => { w with r := { w.r with running := running }, cells := cells, tasks := tasks }
  | some e =>
    { w with
      r := { w.r with running := running, errored := mapSet w.r.errored id p }
      cells := setCell cells p { cells p with err := some e }
      tasks := tasks }

/-- What a call of `Stop` does to its caller. -/
inductive StopReturn where
  | ok
  | error (msg : String)
  | nilDereference
deriving DecidableEq

/-- The signal SIGINT. -/
def SIGINT : Nat := 2

/-- The result of `Stop`: what it returns, the calls `syscall.Kill(pid, sig)` it made, and
the state it leaves. -/
structure StopResult where
  ret : StopReturn
  kills : List (Int × Nat)
  world : World

/-- The method `Stop` (lines 78-90).  `killErr` is what `syscall.Kill` returns when it is
called.  Evaluating `rec.cmd.Process.Pid` with `rec.cmd` or `rec.cmd.Process` nil is a nil
pointer dereference: the call panics (the deferred unlock still runs). -/
def Stop (w : World) (id : String) (killErr : Option GoError) : StopResult :=
  match mapGet w.r.running id with
  | none => { ret := StopReturn.error "recording not found", kills := [], world := w }
  | some p =>
    match (w.cells p).cmd with
    | none => { ret := StopReturn.nilDereference, kills := [], world := w }
    | some c =>
      match c.Process with
      | none => { ret := StopReturn.nilDereference, kills := [], world := w }
      | some proc =>
        match killErr with
        | some _ =>
          { ret := StopReturn.error "cannot abort recording", kills := [(-proc.Pid, SIGINT)],
            world := w }
        | none => { ret := StopReturn.ok, kills := [(-proc.Pid, SIGINT)], world := w }

/-- The method `RemoveError` (lines 92-96). -/
def RemoveError (w : World) (id : String) : World :=
  { w with r := { w.r with errored := mapDelete w.r.errored id } }

/-! ## The function `buildModel` (`main.go`) -/

/-- The fields of the struct `Cli` (lines 17-24 of `main.go`) that `buildModel` reads; its
`recorder` is the program state. -/
structure Cli where
  DataDir : String
  NoEncode : Bool
deriving DecidableEq

/-- An `os.FileInfo`, by the three methods `buildModel` calls. -/
structure FileInfo where
  Name : String
  IsDir : Bool
  Size : Int
deriving DecidableEq

/-- The struct `RecordingModel` (lines 90-94 of `main.go`). -/
structure RecordingModel where
  Id : String
  Name : String
  Duration : String
deriving DecidableEq

/-- The struct `FailureModel` (lines 96-101 of `main.go`). -/
structure FailureModel where
  Id : String
  Name : String
  Time : String
  Reason : String
deriving DecidableEq

/-- The struct `FileModel` (lines 103-107 of `main.go`). -/
structure FileModel where
  Name : String
  URLEncoded : String
  Size : String
deriving DecidableEq

/-- The struct `Model` (lines 109-114 of `main.go`). -/
structure Model where
  Recordings : List RecordingModel
  Failures : List FailureModel
  Files : List FileModel
  CanTranscode : Bool
deriving DecidableEq

/-- The zero value `Model{}`. -/
def Model.zero : Model :=
  { Recordings := [], Failures := [], Files := [], CanTranscode := false }

/-- What one call of `buildModel` takes from outside the program: `readDir` is
`ioutil.ReadDir`, `pathEscape` is `url.PathEscape`, `humanizeBytes` is `humanize.Bytes`,
`clock k` is the reading of the `k`-th call of `time.Now()`, `elapsed now start` is
`now.Sub(start).Round(time.Second).String()`, `rfc1123` is `Time.Format(time.RFC1123)`, and
`rangeOrder m` is the order in which `range` visits the entries of the map `m` (Go leaves it
open; it is some rearrangement of the entries). -/
structure BuildEnv where
  readDir : String → Except GoError (List FileInfo)
  pathEscape : String → String
  humanizeBytes : Nat → String
  clock : Nat → Time
  elapsed : Time → Time → String
  rfc1123 : Time → String
  rangeOrder : List (String × Ptr) → List (String × Ptr)

/-- The conversion `uint64(n)` of an `int64`. -/
def toUint64 (n : Int) : Nat :=
  (n % 18446744073709551616).toNat

/-- The loop on lines 124-132 of `buildModel` over the directory entries. -/
def fileRows (env : BuildEnv) : List FileInfo → List FileModel
  | [] => []
  | f :: files =>
    if f.IsDir then fileRows env files
    else
      { Name := f.Name, URLEncoded := env.pathEscape f.Name,
        Size := env.humanizeBytes (toUint64 f.Size) } :: fileRows env files

/-- The loop on lines 137-143 of `buildModel`, over the entries of `running` in the order
`range` visits them; the `k`-th entry reads the clock for the `k`-th time. -/
def recordingRows (env : BuildEnv) (cells : Ptr → recording) :
    List (String × Ptr) → Nat → List RecordingModel
  | [], _ => []
  | (id, p) :: m, k =>
    { Id := id, Name := (cells p).filename,
      Duration := env.elapsed (env.clock k) (cells p).startTime } ::
      recordingRows env cells m (k + 1)

/-- The loop on lines 145-152 of `buildModel`, over the entries of `errored` in the order
`range` visits them.  `rec.err.Error()` on a nil `err` is a nil dereference, `none`. -/
def failureRows (rfc1123 : Time → String) (cells : Ptr → recording) :
    List (String × Ptr) → Option (List FailureModel)
  | [] => some []
  | (id, p) :: m =>
    match (cells p).err with
    | none => none
    | some e =>
      match failureRows rfc1123 cells m with
      | none => none
      | some rows =>
        some ({ Id := id, Name := (cells p).filename, Time := rfc1123 (cells p).startTime,
                Reason := e.msg } :: rows)

/-- What a call of `buildModel` does to its caller: it returns a model and a nil error, or a
model and an error, or it panics on a nil dereference. -/
inductive BuildReturn where
  | ok (model : Model)
  | error (model : Model) (err : GoError)
  | nilDereference
deriving DecidableEq

/-- The function `buildModel` (lines 116-157 of `main.go`) in the program state `w`. -/
def buildModel (env : BuildEnv) (cli : Cli) (w : World) : BuildReturn :=
  match env.readDir cli.DataDir with
  | Except.error err =>
    BuildReturn.error Model.zero { msg := "cannot list directory: " ++ err.msg }
  | Except.ok files =>
    let files := fileRows env files
    let recordings := recordingRows env w.cells (env.rangeOrder w.r.running) 0
    match failureRows env.rfc1123 w.cells (env.rangeOrder w.r.errored) with
    | none => BuildReturn.nilDereference
    | some failures =>
      BuildReturn.ok
        { Recordings := recordings, Failures := failures, Files := files,
          CanTranscode := !cli.NoEncode }

/-! ## Interleavings -/

/-- One atomic step of the program. -/
inductive Step (join : String → String → String) : World → World → Prop where
  | record (w : World) (channel : String) (now1 now2 : Time) (id : String)
      (fresh : id ∉ w.drawn) : Step join w (Record join w channel now1 now2 id)
  | start (w w' : World) (t : Task) (res : Except GoError Process)
      (ht : t ∈ w.tasks) (hpc : t.pc = PC.atStart)
      (h : supervisorStart w t res = some w') : Step join w w'
  | wait (w : World) (t : Task) (res : Option GoError)
      (ht : t ∈ w.tasks) (hpc : t.pc = PC.atWait) : Step join w (supervisorWait w t res)
  | exit (w : World) (t : Task) (err : Option GoError)
      (ht : t ∈ w.tasks) (hpc : t.pc = PC.atLock err) :
      Step join w (supervisorExit w t.id t.ptr err)
  | stop (w : World) (id : String) (killErr : Option GoError) :
      Step join w (Stop w id killErr).world
  | removeError (w : World) (id : String) : Step join w (RemoveError w id)

/-- The states reachable from `NewRecorder dataDir encode`. -/
inductive Reachable (join : String → String → String) (dataDir : String) (encode : Bool) :
    World → Prop where
  | init : Reachable join dataDir encode (World.init dataDir encode)
  | step (w w' : World) (h : Reachable join dataDir encode w) (s : Step join w w') :
      Reachable join dataDir encode w'

/-! ## The invariant of the reachable states -/

/-- The captured arguments `(id, rec)` of the live goroutines. -/
def taskKeys (tasks : List Task) : List (String × Ptr) :=
  tasks.map (fun t => (t.id, t.ptr))

/-- What every reachable state satisfies. -/
structure Inv (w : World) : Prop where
  running_task : ∀ id p, (id, p) ∈ w.r.running → (id, p) ∈ taskKeys w.tasks
  task_running : ∀ id p, (id, p) ∈ taskKeys w.tasks → (id, p) ∈ w.r.running
  task_drawn : ∀ id p, (id, p) ∈ taskKeys w.tasks → id ∈ w.drawn
  task_alloc : ∀ id p, (id, p) ∈ taskKeys w.tasks → p < w.next
  task_inj : ∀ id id' p, (id, p) ∈ taskKeys w.tasks → (id', p) ∈ taskKeys w.tasks → id = id'
  task_cmd : ∀ id p, (id, p) ∈ taskKeys w.tasks → (w.cells p).cmd ≠ none
  running_nodup : (mapKeys w.r.running).Nodup
  errored_nodup : (mapKeys w.r.errored).Nodup
  errored_drawn : ∀ id p, (id, p) ∈ w.r.errored → id ∈ w.drawn
  errored_alloc : ∀ id p, (id, p) ∈ w.r.errored → p < w.next
  errored_task : ∀ id p, (id, p) ∈ w.r.errored →
    ∀ id' p', (id', p') ∈ taskKeys w.tasks → id' ≠ id ∧ p' ≠ p
  errored_cmd : ∀ id p, (id, p) ∈ w.r.errored → (w.cells p).cmd = none
  errored_err : ∀ id p, (id, p) ∈ w.r.errored → (w.cells p).err ≠ none

/-! ## A concrete run: one `Record` whose launch fails -/

/-- What `path.Join` gives for two clean, non-empty names. -/
def exampleJoin (dir file : String) : String :=
  dir ++ "/" ++ file

/-- The reading of `time.Now()` on line 43, just before a second ends. -/
def exampleNow1 : Time :=
  { year := 2020, month := 1, day := 2, hour := 12, minute := 0, second := 0, nsec := 999999999 }

/-- The reading of `time.Now()` on line 44, just after that second has ended. -/
def exampleNow2 : Time :=
  { year := 2020, month := 1, day := 2, hour := 12, minute := 0, second := 1, nsec := 0 }

/-- The error of a failed `cmd.Start()`. -/
def launchError : GoError :=
  { msg := "fork/exec /bin/bash: no such file or directory" }

/-- The state after `NewRecorder("data", false)`. -/
def world0 : World :=
  World.init "data" false

/-- The state after `Record("carol")` has drawn the id `"x"` and returned. -/
def world1 : World :=
  Record exampleJoin world0 "carol" exampleNow1 exampleNow2 "x"

/-- The goroutine `Record` has started in `world1`. -/
def task1 : Task :=
  { id := "x", ptr := 0, pc := PC.atStart }

/-- The state after the launch of that recording has failed. -/
def world2 : World :=
  { world1 with tasks := [{ id := "x", ptr := 0, pc := PC.atLock (some launchError) }] }

/-- The state after the goroutine's exit transition. -/
def world3 : World :=
  supervisorExit world2 "x" 0 (some launchError)

/-- The state after the launch of the recording of `world1` has succeeded with pid 4242. -/
def world4 : World :=
  { world1 with
    cells := setCell world1.cells 0
      { world1.cells 0 with
        cmd := (world1.cells 0).cmd.map (fun c => { c with Process := some { Pid := 4242 } }) }
    tasks := [{ id := "x", ptr := 0, pc := PC.atWait }] }

/-- The command line `--data-dir data` with encoding left on. -/
def exampleCli : Cli :=
  { DataDir := "data", NoEncode := false }

/-- A call of `buildModel` that finds the data directory readable and empty, and visits the
entries of a map last to first. -/
def readableEnv : BuildEnv :=
  { readDir := fun _ => Except.ok []
    pathEscape := fun name => name
    humanizeBytes := fun _ => "0 B"
    clock := fun _ => exampleNow2
    elapsed := fun _ _ => "0s"
    rfc1123 := fun _ => "Thu, 02 Jan 2020 12:00:01 UTC"
    rangeOrder := fun m => m.reverse }

/-- A call of `buildModel` that finds no data directory. -/
def unreadableEnv : BuildEnv :=
  { readableEnv with
    readDir := fun dir => Except.error { msg := "open " ++ dir ++ ": no such file or directory" } }

/-! ## Facts about maps -/

theorem mem_mapDelete {α : Type} (m : List (String × α)) (k k' : String) (v : α) :
    (k', v) ∈ mapDelete m k ↔ (k', v) ∈ m ∧ k' ≠ k := by
  induction m with
  | nil => simp [mapDelete]
  | cons e m ih =>
    obtain ⟨k0, v0⟩ := e
    by_cases h : k0 = k
    · simp only [mapDelete, h, if_true, ih, List.mem_cons, Prod.mk.injEq]
      constructor
      · rintro ⟨h1, h2⟩
        exact ⟨Or.inr h1, h2⟩
      · rintro ⟨h1 | h1, h2⟩
        · exact absurd h1.1 h2
        · exact ⟨h1, h2⟩
    · simp only [mapDelete, h, if_false, List.mem_cons, ih, Prod.mk.injEq]
      constructor
      · rintro (⟨rfl, rfl⟩ | ⟨h1, h2⟩)
        · exact ⟨Or.inl ⟨rfl, rfl⟩, h⟩
        · exact ⟨Or.inr h1, h2⟩
      · rintro ⟨h1 | h1, h2⟩
        · exact Or.inl h1
        · exact Or.inr ⟨h1, h2⟩

theorem mem_mapSet {α : Type} (m : List (String × α)) (k k' : String) (v v' : α) :
    (k', v') ∈ mapSet m k v ↔ (k' = k ∧ v' = v) ∨ ((k', v') ∈ m ∧ k' ≠ k) := by
  simp [mapSet, mem_mapDelete]

theorem mem_mapKeys_iff {α : Type} (m : List (String × α)) (k : String) :
    k ∈ mapKeys m ↔ ∃ v, (k, v) ∈ m := by
  simp [mapKeys]

theorem mapGet_mem {α : Type} (m : List (String × α)) (k : String) (v : α) (h : mapGet m k = some v) :
    (k, v) ∈ m := by
  induction m with
  | nil => simp [mapGet] at h
  | cons e m ih =>
    obtain ⟨k0, v0⟩ := e
    by_cases hk : k0 = k
    · simp only [mapGet, hk, if_true, Option.some.injEq] at h
      simp [hk, h]
    · simp only [mapGet, hk, if_false] at h
      exact List.mem_cons_of_mem _ (ih h)

theorem mapGet_eq_none_iff {α : Type} (m : List (String × α)) (k : String) :
    mapGet m k = none ↔ k ∉ mapKeys m := by
  induction m with
  | nil => simp [mapGet, mapKeys]
  | cons e m ih =>
    obtain ⟨k0, v0⟩ := e
    by_cases hk : k0 = k
    · simp [mapGet, mapKeys, hk]
    · have hk' : ¬ k = k0 := fun h => hk h.symm
      simpa [mapGet, mapKeys, hk, hk'] using ih

theorem mem_mapKeys_iff_mapGet {α : Type} (m : List (String × α)) (k : String) :
    k ∈ mapKeys m ↔ ∃ v, mapGet m k = some v := by
  constructor
  · intro h
    cases hg : mapGet m k with
    | none => exact absurd h ((mapGet_eq_none_iff m k).1 hg)
    | some v => exact ⟨v, rfl⟩
  · rintro ⟨v, hv⟩
    exact (mem_mapKeys_iff m k).2 ⟨v, mapGet_mem m k v hv⟩

theorem mapGet_of_mem {α : Type} (m : List (String × α)) (k : String) (v : α)
    (hn : (mapKeys m).Nodup) (h : (k, v) ∈ m) : mapGet m k = some v := by
  induction m with
  | nil => simp at h
  | cons e m ih =>
    obtain ⟨k0, v0⟩ := e
    simp only [mapKeys, List.map_cons, List.nodup_cons] at hn
    rcases List.mem_cons.1 h with h | h
    · simp only [Prod.mk.injEq] at h
      simp [mapGet, h.1, h.2]
    · have hk : k0 ≠ k := by
        rintro rfl
        exact hn.1 ((mem_mapKeys_iff m k0).2 ⟨v, h⟩)
      simp only [mapGet, hk, if_false]
      exact ih hn.2 h

theorem mapGet_mapDelete_self {α : Type} (m : List (String × α)) (k : String) :
    mapGet (mapDelete m k) k = none := by
  rw [mapGet_eq_none_iff, mem_mapKeys_iff]
  rintro ⟨v, hv⟩
  exact ((mem_mapDelete m k k v).1 hv).2 rfl

theorem mapGet_mapDelete_ne {α : Type} (m : List (String × α)) (k k' : String) (h : k' ≠ k) :
    mapGet (mapDelete m k) k' = mapGet m k' := by
  induction m with
  | nil => rfl
  | cons e m ih =>
    obtain ⟨k0, v0⟩ := e
    by_cases hk : k0 = k
    · have hk' : ¬ k0 = k' := by
        rw [hk]
        exact fun e => h e.symm
      simp only [mapDelete, mapGet, hk, hk', if_true, if_false, ih]
      rw [if_neg (fun e => h e.symm)]
    · by_cases hk' : k0 = k'
      · subst hk'
        simp only [mapDelete, hk, if_false, mapGet, if_true]
      · simp only [mapDelete, hk, if_false, mapGet, hk', ih]

theorem mapGet_mapSet_self {α : Type} (m : List (String × α)) (k : String) (v : α) :
    mapGet (mapSet m k v) k = some v := by
  simp [mapSet, mapGet]

theorem mapGet_mapSet_ne {α : Type} (m : List (String × α)) (k k' : String) (v : α) (h : k' ≠ k) :
    mapGet (mapSet m k v) k' = mapGet m k' := by
  have h' : ¬ k = k' := fun e => h e.symm
  simp [mapSet, mapGet, h', mapGet_mapDelete_ne m k k' h]

theorem mapDelete_of_not_mem {α : Type} (m : List (String × α)) (k : String) (h : k ∉ mapKeys m) :
    mapDelete m k = m := by
  induction m with
  | nil => rfl
  | cons e m ih =>
    obtain ⟨k0, v0⟩ := e
    simp only [mapKeys, List.map_cons, List.mem_cons, not_or] at h
    have hk : ¬ k0 = k := fun e => h.1 e.symm
    simp only [mapDelete, hk, if_false]
    rw [ih h.2]

theorem not_mem_mapKeys_mapDelete {α : Type} (m : List (String × α)) (k : String) :
    k ∉ mapKeys (mapDelete m k) :=
  (mapGet_eq_none_iff _ _).1 (mapGet_mapDelete_self m k)

theorem mapDelete_idem {α : Type} (m : List (String × α)) (k : String) :
    mapDelete (mapDelete m k) k = mapDelete m k :=
  mapDelete_of_not_mem _ _ (not_mem_mapKeys_mapDelete m k)

theorem mem_mapKeys_mapDelete {α : Type} (m : List (String × α)) (k k' : String) :
    k' ∈ mapKeys (mapDelete m k) ↔ k' ∈ mapKeys m ∧ k' ≠ k := by
  simp only [mem_mapKeys_iff, mem_mapDelete]
  constructor
  · rintro ⟨v, h1, h2⟩
    exact ⟨⟨v, h1⟩, h2⟩
  · rintro ⟨⟨v, h1⟩, h2⟩
    exact ⟨v, h1, h2⟩

theorem nodup_mapKeys_mapDelete {α : Type} (m : List (String × α)) (k : String)
    (h : (mapKeys m).Nodup) : (mapKeys (mapDelete m k)).Nodup := by
  induction m with
  | nil => simp [mapDelete, mapKeys]
  | cons e m ih =>
    obtain ⟨k0, v0⟩ := e
    have h' : k0 ∉ mapKeys m ∧ (mapKeys m).Nodup := by
      simpa [mapKeys] using h
    by_cases hk : k0 = k
    · simp only [mapDelete, hk, if_true]
      exact ih h'.2
    · simp only [mapDelete, hk, if_false]
      have : k0 ∉ mapKeys (mapDelete m k) := fun hm =>
        h'.1 ((mem_mapKeys_mapDelete m k k0).1 hm).1
      have ih' := ih h'.2
      simp only [mapKeys, List.map_cons, List.nodup_cons]
      exact ⟨this, ih'⟩

theorem nodup_mapKeys_mapSet {α : Type} (m : List (String × α)) (k : String) (v : α)
    (h : (mapKeys m).Nodup) : (mapKeys (mapSet m k v)).Nodup := by
  simp only [mapSet, mapKeys, List.map_cons, List.nodup_cons]
  exact ⟨not_mem_mapKeys_mapDelete m k, nodup_mapKeys_mapDelete m k h⟩

theorem mem_taskKeys (tasks : List Task) (t : Task) (h : t ∈ tasks) :
    (t.id, t.ptr) ∈ taskKeys tasks :=
  List.mem_map.2 ⟨t, h, rfl⟩

theorem taskKeys_setPC (tasks : List Task) (p : Ptr) (pc : PC) :
    taskKeys (setPC tasks p pc) = taskKeys tasks := by
  simp only [taskKeys, setPC, List.map_map]
  apply List.map_congr_left
  intro t _
  by_cases h : t.ptr = p <;> simp [h]

theorem mem_taskKeys_filter (tasks : List Task) (p : Ptr) (id' : String) (p' : Ptr) :
    (id', p') ∈ taskKeys (tasks.filter (fun t => decide (t.ptr ≠ p))) ↔
      (id', p') ∈ taskKeys tasks ∧ p' ≠ p := by
  simp only [taskKeys, List.mem_map, List.mem_filter, decide_eq_true_eq, Prod.mk.injEq]
  constructor
  · rintro ⟨t, ⟨h1, h2⟩, h3, h4⟩
    exact ⟨⟨t, h1, h3, h4⟩, h4 ▸ h2⟩
  · rintro ⟨⟨t, h1, h3, h4⟩, h2⟩
    exact ⟨t, ⟨h1, h4 ▸ h2⟩, h3, h4⟩

theorem setCell_same (cells : Ptr → recording) (p : Ptr) (v : recording) :
    setCell cells p v p = v := by
  simp [setCell]

theorem setCell_ne (cells : Ptr → recording) (p q : Ptr) (v : recording) (h : q ≠ p) :
    setCell cells p v q = cells q := by
  simp [setCell, h]

theorem inv_init (dataDir : String) (encode : Bool) : Inv (World.init dataDir encode) := by
  constructor <;> simp [World.init, NewRecorder, taskKeys, mapKeys]

theorem inv_record (join : String → String → String) (w : World) (channel : String)
    (now1 now2 : Time) (id : String) (hw : Inv w) (fresh : id ∉ w.drawn) :
    Inv (Record join w channel now1 now2 id) := by
  have hnr : ∀ p, (id, p) ∉ w.r.running := fun p hp =>
    fresh (hw.task_drawn id p (hw.running_task id p hp))
  have hnp : ∀ i, (i, w.next) ∉ taskKeys w.tasks := fun i hi =>
    absurd (hw.task_alloc i w.next hi) (lt_irrefl _)
  constructor
  · intro i p h
    simp only [Record, mem_mapSet] at h
    simp only [Record, taskKeys, List.map_cons, List.mem_cons, Prod.mk.injEq]
    rcases h with h | h
    · exact Or.inl h
    · exact Or.inr (hw.running_task i p h.1)
  · intro i p h
    simp only [Record, taskKeys, List.map_cons, List.mem_cons, Prod.mk.injEq] at h
    simp only [Record, mem_mapSet]
    rcases h with h | h
    · exact Or.inl h
    · refine Or.inr ⟨hw.task_running i p h, ?_⟩
      rintro rfl
      exact fresh (hw.task_drawn _ _ h)
  · intro i p h
    simp only [Record, taskKeys, List.map_cons, List.mem_cons, Prod.mk.injEq] at h
    simp only [Record, List.mem_cons]
    rcases h with h | h
    · exact Or.inl h.1
    · exact Or.inr (hw.task_drawn i p h)
  · intro i p h
    simp only [Record, taskKeys, List.map_cons, List.mem_cons, Prod.mk.injEq] at h
    simp only [Record]
    rcases h with h | h
    · rw [h.2]
      exact Nat.lt_succ_self _
    · exact Nat.lt_succ_of_lt (hw.task_alloc i p h)
  · intro i i' p h h'
    simp only [Record, taskKeys, List.map_cons, List.mem_cons, Prod.mk.injEq] at h h'
    rcases h with h | h <;> rcases h' with h' | h'
    · rw [h.1, h'.1]
    · exact absurd (h.2 ▸ h') (hnp i')
    · exact absurd (h'.2 ▸ h) (hnp i)
    · exact hw.task_inj i i' p h h'
  · intro i p h
    simp only [Record, taskKeys, List.map_cons, List.mem_cons, Prod.mk.injEq] at h
    simp only [Record]
    rcases h with h | h
    · rw [h.2, setCell_same]
      simp
    · have hp : p ≠ w.next := fun e => hnp i (e ▸ h)
      rw [setCell_ne _ _ _ _ hp]
      exact hw.task_cmd i p h
  · exact nodup_mapKeys_mapSet _ _ _ hw.running_nodup
  · exact hw.errored_nodup
  · intro i p h
    exact List.mem_cons_of_mem _ (hw.errored_drawn i p h)
  · intro i p h
    exact Nat.lt_succ_of_lt (hw.errored_alloc i p h)
  · intro i p h i' p' h'
    simp only [Record, taskKeys, List.map_cons, List.mem_cons, Prod.mk.injEq] at h'
    rcases h' with h' | h'
    · constructor
      · rw [h'.1]
        rintro rfl
        exact fresh (hw.errored_drawn _ p h)
      · rw [h'.2]
        exact fun e => absurd (hw.errored_alloc i p h) (e ▸ lt_irrefl _)
    · exact hw.errored_task i p h i' p' h'
  · intro i p h
    have hp : p ≠ w.next := fun e => absurd (hw.errored_alloc i p h) (e ▸ lt_irrefl _)
    simp only [Record]
    rw [setCell_ne _ _ _ _ hp]
    exact hw.errored_cmd i p h
  · intro i p h
    have hp : p ≠ w.next := fun e => absurd (hw.errored_alloc i p h) (e ▸ lt_irrefl _)
    simp only [Record]
    rw [setCell_ne _ _ _ _ hp]
    exact hw.errored_err i p h

theorem supervisorExit_running (w : World) (id : String) (p : Ptr) (err : Option GoError) :
    (supervisorExit w id p err).r.running = mapDelete w.r.running id := by
  cases err <;> rfl

theorem supervisorExit_errored (w : World) (id : String) (p : Ptr) (err : Option GoError) :
    (supervisorExit w id p err).r.errored =
      if err = none then w.r.errored else mapSet w.r.errored id p := by
  cases err <;> rfl

theorem supervisorExit_tasks (w : World) (id : String) (p : Ptr) (err : Option GoError) :
    (supervisorExit w id p err).tasks = w.tasks.filter (fun t => decide (t.ptr ≠ p)) := by
  cases err <;> rfl

theorem supervisorExit_next (w : World) (id : String) (p : Ptr) (err : Option GoError) :
    (supervisorExit w id p err).next = w.next := by
  cases err <;> rfl

theorem supervisorExit_drawn (w : World) (id : String) (p : Ptr) (err : Option GoError) :
    (supervisorExit w id p err).drawn = w.drawn := by
  cases err <;> rfl

theorem supervisorExit_cells_ne (w : World) (id : String) (p q : Ptr) (err : Option GoError)
    (h : q ≠ p) : (supervisorExit w id p err).cells q = w.cells q := by
  cases err <;> simp [supervisorExit, setCell, h]

theorem supervisorExit_cells_cmd (w : World) (id : String) (p : Ptr) (err : Option GoError) :
    ((supervisorExit w id p err).cells p).cmd = none := by
  cases err <;> simp [supervisorExit, setCell]

theorem supervisorExit_cells_err (w : World) (id : String) (p : Ptr) (e : GoError) :
    ((supervisorExit w id p (some e)).cells p).err = some e := by
  simp [supervisorExit, setCell]

theorem inv_start (w w' : World) (t : Task) (res : Except GoError Process) (hw : Inv w)
    (ht : t ∈ w.tasks) (h : supervisorStart w t res = some w') : Inv w' := by
  have htk := mem_taskKeys w.tasks t ht
  unfold supervisorStart at h
  cases hc : (w.cells t.ptr).cmd with
  | none => simp [hc] at h
  | some c =>
    rw [hc] at h
    cases res with
    | error e =>
      simp only [Option.some.injEq] at h
      subst h
      constructor <;> simp only [taskKeys_setPC]
      · exact hw.running_task
      · exact hw.task_running
      · exact hw.task_drawn
      · exact hw.task_alloc
      · exact hw.task_inj
      · exact hw.task_cmd
      · exact hw.running_nodup
      · exact hw.errored_nodup
      · exact hw.errored_drawn
      · exact hw.errored_alloc
      · exact hw.errored_task
      · exact hw.errored_cmd
      · exact hw.errored_err
    | ok proc =>
      simp only [Option.some.injEq] at h
      subst h
      have hne : ∀ i p, (i, p) ∈ w.r.errored → p ≠ t.ptr := fun i p hp e =>
        (hw.errored_task i p hp t.id t.ptr htk).2 e.symm
      constructor <;> simp only [taskKeys_setPC]
      · exact hw.running_task
      · exact hw.task_running
      · exact hw.task_drawn
      · exact hw.task_alloc
      · exact hw.task_inj
      · intro i p hp
        by_cases e : p = t.ptr
        · rw [e, setCell_same]
          simp
        · rw [setCell_ne _ _ _ _ e]
          exact hw.task_cmd i p hp
      · exact hw.running_nodup
      · exact hw.errored_nodup
      · exact hw.errored_drawn
      · exact hw.errored_alloc
      · exact hw.errored_task
      · intro i p hp
        rw [setCell_ne _ _ _ _ (hne i p hp)]
        exact hw.errored_cmd i p hp
      · intro i p hp
        rw [setCell_ne _ _ _ _ (hne i p hp)]
        exact hw.errored_err i p hp

theorem inv_wait (w : World) (t : Task) (res : Option GoError) (hw : Inv w) :
    Inv (supervisorWait w t res) := by
  constructor <;> simp only [supervisorWait, taskKeys_setPC]
  · exact hw.running_task
  · exact hw.task_running
  · exact hw.task_drawn
  · exact hw.task_alloc
  · exact hw.task_inj
  · exact hw.task_cmd
  · exact hw.running_nodup
  · exact hw.errored_nodup
  · exact hw.errored_drawn
  · exact hw.errored_alloc
  · exact hw.errored_task
  · exact hw.errored_cmd
  · exact hw.errored_err

/-- In a state satisfying the invariant, a live goroutine is the only one with its id. -/
theorem task_ptr_of_id (w : World) (hw : Inv w) (id : String) (p q : Ptr)
    (hp : (id, p) ∈ taskKeys w.tasks) (hq : (id, q) ∈ taskKeys w.tasks) : p = q := by
  have h1 := mapGet_of_mem _ _ _ hw.running_nodup (hw.task_running id p hp)
  have h2 := mapGet_of_mem _ _ _ hw.running_nodup (hw.task_running id q hq)
  rw [h1] at h2
  exact Option.some.inj h2

theorem inv_exit (w : World) (t : Task) (err : Option GoError) (hw : Inv w)
    (ht : t ∈ w.tasks) : Inv (supervisorExit w t.id t.ptr err) := by
  have htk := mem_taskKeys w.tasks t ht
  have hne : ∀ i p, (i, p) ∈ w.r.errored → p ≠ t.ptr := fun i p hp e =>
    (hw.errored_task i p hp t.id t.ptr htk).2 e.symm
  have hne' : ∀ i p, (i, p) ∈ w.r.errored → i ≠ t.id := fun i p hp e =>
    (hw.errored_task i p hp t.id t.ptr htk).1 e.symm
  have herr : ∀ i p, (i, p) ∈ (supervisorExit w t.id t.ptr err).r.errored →
      (i = t.id ∧ p = t.ptr ∧ err ≠ none) ∨ ((i, p) ∈ w.r.errored) := by
    intro i p hp
    rw [supervisorExit_errored] at hp
    by_cases he : err = none
    · rw [if_pos he] at hp
      exact Or.inr hp
    · rw [if_neg he, mem_mapSet] at hp
      rcases hp with hp | hp
      · exact Or.inl ⟨hp.1, hp.2, he⟩
      · exact Or.inr hp.1
  constructor
  · intro i p h
    rw [supervisorExit_running, mem_mapDelete] at h
    rw [supervisorExit_tasks, mem_taskKeys_filter]
    refine ⟨hw.running_task i p h.1, ?_⟩
    rintro rfl
    exact h.2 (hw.task_inj _ _ _ (hw.running_task i _ h.1) htk)
  · intro i p h
    rw [supervisorExit_tasks, mem_taskKeys_filter] at h
    rw [supervisorExit_running, mem_mapDelete]
    refine ⟨hw.task_running i p h.1, ?_⟩
    rintro rfl
    exact h.2 (task_ptr_of_id w hw _ _ _ h.1 htk)
  · intro i p h
    rw [supervisorExit_tasks, mem_taskKeys_filter] at h
    rw [supervisorExit_drawn]
    exact hw.task_drawn i p h.1
  · intro i p h
    rw [supervisorExit_tasks, mem_taskKeys_filter] at h
    rw [supervisorExit_next]
    exact hw.task_alloc i p h.1
  · intro i i' p h h'
    rw [supervisorExit_tasks, mem_taskKeys_filter] at h h'
    exact hw.task_inj i i' p h.1 h'.1
  · intro i p h
    rw [supervisorExit_tasks, mem_taskKeys_filter] at h
    rw [supervisorExit_cells_ne _ _ _ _ _ h.2]
    exact hw.task_cmd i p h.1
  · rw [supervisorExit_running]
    exact nodup_mapKeys_mapDelete _ _ hw.running_nodup
  · rw [supervisorExit_errored]
    by_cases he : err = none
    · rw [if_pos he]
      exact hw.errored_nodup
    · rw [if_neg he]
      exact nodup_mapKeys_mapSet _ _ _ hw.errored_nodup
  · intro i p h
    rw [supervisorExit_drawn]
    rcases herr i p h with ⟨rfl, rfl, _⟩ | h
    · exact hw.task_drawn _ _ htk
    · exact hw.errored_drawn i p h
  · intro i p h
    rw [supervisorExit_next]
    rcases herr i p h with ⟨rfl, rfl, _⟩ | h
    · exact hw.task_alloc _ _ htk
    · exact hw.errored_alloc i p h
  · intro i p h i' p' h'
    rw [supervisorExit_tasks, mem_taskKeys_filter] at h'
    rcases herr i p h with ⟨rfl, rfl, _⟩ | h
    · refine ⟨?_, h'.2⟩
      rintro rfl
      exact h'.2 (task_ptr_of_id w hw _ _ _ h'.1 htk)
    · exact hw.errored_task i p h i' p' h'.1
  · intro i p h
    rcases herr i p h with ⟨rfl, rfl, _⟩ | h
    · exact supervisorExit_cells_cmd _ _ _ _
    · rw [supervisorExit_cells_ne _ _ _ _ _ (hne i p h)]
      exact hw.errored_cmd i p h
  · intro i p h
    rcases herr i p h with ⟨rfl, rfl, he⟩ | h
    · cases err with
      | none => exact absurd rfl he
      | some e =>
        rw [supervisorExit_cells_err]
        simp
    · rw [supervisorExit_cells_ne _ _ _ _ _ (hne i p h)]
      exact hw.errored_err i p h

theorem Stop_world (w : World) (id : String) (killErr : Option GoError) :
    (Stop w id killErr).world = w := by
  unfold Stop
  split
  · rfl
  · split
    · rfl
    · split
      · rfl
      · split <;> rfl

theorem inv_removeError (w : World) (id : String) (hw : Inv w) : Inv (RemoveError w id) := by
  constructor
  · exact hw.running_task
  · exact hw.task_running
  · exact hw.task_drawn
  · exact hw.task_alloc
  · exact hw.task_inj
  · exact hw.task_cmd
  · exact hw.running_nodup
  · exact nodup_mapKeys_mapDelete _ _ hw.errored_nodup
  · intro i p h
    exact hw.errored_drawn i p ((mem_mapDelete _ _ _ _).1 h).1
  · intro i p h
    exact hw.errored_alloc i p ((mem_mapDelete _ _ _ _).1 h).1
  · intro i p h
    exact hw.errored_task i p ((mem_mapDelete _ _ _ _).1 h).1
  · intro i p h
    exact hw.errored_cmd i p ((mem_mapDelete _ _ _ _).1 h).1
  · intro i p h
    exact hw.errored_err i p ((mem_mapDelete _ _ _ _).1 h).1

theorem inv_step (join : String → String → String) (w w' : World) (hw : Inv w)
    (s : Step join w w') : Inv w' := by
  cases s with
  | record channel now1 now2 id fresh => exact inv_record join w channel now1 now2 id hw fresh
  | start _ t res ht hpc h => exact inv_start w w' t res hw ht h
  | wait t res ht hpc => exact inv_wait w t res hw
  | exit t err ht hpc => exact inv_exit w t err hw ht
  | stop id killErr =>
    rw [Stop_world]
    exact hw
  | removeError id => exact inv_removeError w id hw

theorem reachable_inv (join : String → String → String) (dataDir : String) (encode : Bool)
    (w : World) (h : Reachable join dataDir encode w) : Inv w := by
  induction h with
  | init => exact inv_init dataDir encode
  | step w w' _ s ih => exact inv_step join w w' ih s

theorem start_world1 : supervisorStart world1 task1 (Except.error launchError) = some world2 :=
  rfl

theorem reachable_world1 : Reachable exampleJoin "data" false world1 :=
  Reachable.step _ _ Reachable.init
    (Step.record world0 "carol" exampleNow1 exampleNow2 "x" (by simp [world0, World.init]))

theorem reachable_world2 : Reachable exampleJoin "data" false world2 :=
  Reachable.step _ _ reachable_world1
    (Step.start world1 world2 task1 (Except.error launchError) (by decide)
      rfl start_world1)

theorem reachable_world3 : Reachable exampleJoin "data" false world3 :=
  Reachable.step _ _ reachable_world2
    (Step.exit world2 { id := "x", ptr := 0, pc := PC.atLock (some launchError) }
      (some launchError) (by decide) rfl)

theorem RemoveError_of_not_mem (w : World) (id : String) (h : id ∉ mapKeys w.r.errored) :
    RemoveError w id = w := by
  unfold RemoveError
  rw [mapDelete_of_not_mem _ _ h]

theorem start_world4 : supervisorStart world1 task1 (Except.ok { Pid := 4242 }) = some world4 :=
  rfl

theorem reachable_world4 : Reachable exampleJoin "data" false world4 :=
  Reachable.step _ _ reachable_world1
    (Step.start world1 world4 task1 (Except.ok { Pid := 4242 }) (by decide) rfl start_world4)

theorem failureRows_spec (rfc1123 : Time → String) (cells : Ptr → recording)
    (m : List (String × Ptr)) (hm : ∀ id p, (id, p) ∈ m → (cells p).err ≠ none) :
    ∃ rows, failureRows rfc1123 cells m = some rows ∧
      rows.map FailureModel.Id = mapKeys m ∧
      (∀ id p, (id, p) ∈ m → ∃ e, (cells p).err = some e ∧
        { Id := id, Name := (cells p).filename, Time := rfc1123 (cells p).startTime,
          Reason := e.msg } ∈ rows) ∧
      ∀ row, row ∈ rows → ∃ id p e, (id, p) ∈ m ∧ (cells p).err = some e ∧
        row = { Id := id, Name := (cells p).filename, Time := rfc1123 (cells p).startTime,
                Reason := e.msg } := by
  induction m with
  | nil =>
    exact ⟨[], rfl, rfl, fun _ _ h => absurd h (List.not_mem_nil _),
      fun _ h => absurd h (List.not_mem_nil _)⟩
  | cons a m ih =>
    obtain ⟨id0, p0⟩ := a
    obtain ⟨rows, hrows, hids, hall, hback⟩ :=
      ih (fun id p h => hm id p (List.mem_cons_of_mem _ h))
    cases he : (cells p0).err with
    | none => exact absurd he (hm id0 p0 (List.mem_cons_self _ _))
    | some e =>
      refine ⟨{ Id := id0, Name := (cells p0).filename, Time := rfc1123 (cells p0).startTime,
                Reason := e.msg } :: rows, ?_, ?_, ?_, ?_⟩
      · simp only [failureRows, he, hrows]
      · simp only [List.map_cons, mapKeys, List.cons.injEq, true_and]
        exact hids
      · intro id p h
        rcases List.mem_cons.1 h with h | h
        · simp only [Prod.mk.injEq] at h
          obtain ⟨rfl, rfl⟩ := h
          exact ⟨e, he, List.mem_cons_self _ _⟩
        · obtain ⟨e', he', hmem⟩ := hall id p h
          exact ⟨e', he', List.mem_cons_of_mem _ hmem⟩
      · intro row h
        rcases List.mem_cons.1 h with h | h
        · exact ⟨id0, p0, e, List.mem_cons_self _ _, he, h⟩
        · obtain ⟨id, p, e', hmem, he', hrow⟩ := hback row h
          exact ⟨id, p, e', List.mem_cons_of_mem _ hmem, he', hrow⟩

theorem supervisorStart_frame (w w' : World) (t : Task) (res : Except GoError Process)
    (h : supervisorStart w t res = some w') : w'.r = w.r ∧ w'.drawn = w.drawn := by
  unfold supervisorStart at h
  cases hc : (w.cells t.ptr).cmd with
  | none => simp [hc] at h
  | some c =>
    rw [hc] at h
    cases res with
    | error e =>
      simp only [Option.some.injEq] at h
      subst h
      exact ⟨rfl, rfl⟩
    | ok proc =>
      simp only [Option.some.injEq] at h
      subst h
      exact ⟨rfl, rfl⟩

theorem step_running_gone (join : String → String → String) (w w' : World) (id : String)
    (s : Step join w w') (hd : id ∈ w.drawn) (hr : id ∉ mapKeys w.r.running) :
    id ∈ w'.drawn ∧ id ∉ mapKeys w'.r.running := by
  cases s with
  | record channel now1 now2 id' fresh =>
    refine ⟨List.mem_cons_of_mem _ hd, ?_⟩
    have hne : id ≠ id' := fun e => fresh (e ▸ hd)
    intro hm
    simp only [Record, mapSet, mapKeys, List.map_cons, List.mem_cons] at hm
    rcases hm with hm | hm
    · exact hne hm
    · exact hr ((mem_mapKeys_mapDelete _ _ _).1 hm).1
  | start _ t res ht hpc h =>
    obtain ⟨h1, h2⟩ := supervisorStart_frame w w' t res h
    rw [h1, h2]
    exact ⟨hd, hr⟩
  | wait t res ht hpc => exact ⟨hd, hr⟩
  | exit t err ht hpc =>
    rw [supervisorExit_drawn, supervisorExit_running]
    exact ⟨hd, fun hm => hr ((mem_mapKeys_mapDelete _ _ _).1 hm).1⟩
  | stop id' killErr =>
    rw [Stop_world]
    exact ⟨hd, hr⟩
  | removeError id' => exact ⟨hd, hr⟩

theorem steps_running_gone (join : String → String → String) (w w' : World) (id : String)
    (s : Relation.ReflTransGen (Step join) w w') (hd : id ∈ w.drawn)
    (hr : id ∉ mapKeys w.r.running) : id ∈ w'.drawn ∧ id ∉ mapKeys w'.r.running := by
  induction s with
  | refl => exact ⟨hd, hr⟩
  | tail _ s ih => exact step_running_gone join _ _ id s ih.1 ih.2

/-! ## The claims -/

/-- C1 (partition): in every state reachable from `NewRecorder` by `Record` (each drawing an
id never drawn before), the supervisor's steps, `Stop` and `RemoveError`, no id is a key of
both the running map and the errored map. -/
theorem C1_partition (join : String → String → String) (dataDir : String) (encode : Bool)
    (w : World) (h : Reachable join dataDir encode w) (id : String) :
    ¬ (id ∈ mapKeys w.r.running ∧ id ∈ mapKeys w.r.errored) := by
  have hw := reachable_inv join dataDir encode w h
  rintro ⟨h1, h2⟩
  obtain ⟨p, hp⟩ := (mem_mapKeys_iff _ _).1 h1
  obtain ⟨q, hq⟩ := (mem_mapKeys_iff _ _).1 h2
  exact (hw.errored_task id q hq id p (hw.running_task id p hp)).1 rfl

/-- C1 at the state after a failed launch has been moved to the errored map. -/
theorem C1_partition_witness :
    Reachable exampleJoin "data" false world3 ∧ "x" ∈ mapKeys world3.r.errored ∧
      ¬ ("x" ∈ mapKeys world3.r.running ∧ "x" ∈ mapKeys world3.r.errored) :=
  ⟨reachable_world3, by decide, C1_partition exampleJoin "data" false world3 reachable_world3 "x"⟩

/-- C2, as stated, fails: in `world1`, the state in which `Record` returns, and in `world2`,
the reachable state after the launch of that recording has failed, the id `"x"` is a key of
the running map and not of the errored map. -/
theorem C2_launch_failure_counterexample :
    Reachable exampleJoin "data" false world1 ∧
      "x" ∈ mapKeys world1.r.running ∧ "x" ∉ mapKeys world1.r.errored ∧
      supervisorStart world1 task1 (Except.error launchError) = some world2 ∧
      Reachable exampleJoin "data" false world2 ∧
      "x" ∈ mapKeys world2.r.running ∧ "x" ∉ mapKeys world2.r.errored :=
  ⟨reachable_world1, by decide, by decide, start_world1, reachable_world2, by decide,
    by decide⟩

/-- C2, amended (launch-failure routing): `Record` starts a supervisor goroutine for the new
id, and in every reachable state the id of a live supervisor goroutine, whether it has
launched yet or its launch has failed, is a key of the running map and not of the errored
map.  A launch that fails with `e` changes neither map and takes the goroutine to its exit
transition with `e`; after that transition the id is a key of errored with reason `e`, and it
is a key of running in no later state. -/
theorem C2_launch_failure (join : String → String → String) (dataDir : String)
    (encode : Bool) (w : World) (h : Reachable join dataDir encode w) :
    (∀ channel now1 now2 id,
      { id := id, ptr := w.next, pc := PC.atStart } ∈
        (Record join w channel now1 now2 id).tasks) ∧
    ∀ t, t ∈ w.tasks →
      (t.id ∈ mapKeys w.r.running ∧ t.id ∉ mapKeys w.r.errored) ∧
      (∀ e, t.pc = PC.atStart →
        ∃ w1, supervisorStart w t (Except.error e) = some w1 ∧ w1.r = w.r ∧
          { t with pc := PC.atLock (some e) } ∈ w1.tasks) ∧
      (∀ e, t.pc = PC.atLock (some e) →
        mapGet (supervisorExit w t.id t.ptr (some e)).r.errored t.id = some t.ptr ∧
        ((supervisorExit w t.id t.ptr (some e)).cells t.ptr).err = some e ∧
        ∀ w', Relation.ReflTransGen (Step join) (supervisorExit w t.id t.ptr (some e)) w' →
          t.id ∉ mapKeys w'.r.running) := by
  have hw := reachable_inv join dataDir encode w h
  refine ⟨fun _ _ _ _ => List.mem_cons_self _ _, ?_⟩
  intro t ht
  have htk := mem_taskKeys w.tasks t ht
  refine ⟨⟨?_, ?_⟩, ?_, ?_⟩
  · exact (mem_mapKeys_iff _ _).2 ⟨t.ptr, hw.task_running _ _ htk⟩
  · intro hm
    obtain ⟨q, hq⟩ := (mem_mapKeys_iff _ _).1 hm
    exact (hw.errored_task t.id q hq t.id t.ptr htk).1 rfl
  · intro e _
    cases hc : (w.cells t.ptr).cmd with
    | none => exact absurd hc (hw.task_cmd _ _ htk)
    | some c =>
      refine ⟨{ w with tasks := setPC w.tasks t.ptr (PC.atLock (some e)) }, ?_, rfl, ?_⟩
      · simp only [supervisorStart, hc]
      · simp only [setPC, List.mem_map]
        exact ⟨t, ht, by simp⟩
  · intro e _
    refine ⟨?_, supervisorExit_cells_err _ _ _ _, ?_⟩
    · rw [supervisorExit_errored, if_neg (by simp)]
      exact mapGet_mapSet_self _ _ _
    · intro w' s
      refine (steps_running_gone join _ w' t.id s ?_ ?_).2
      · rw [supervisorExit_drawn]
        exact hw.task_drawn _ _ htk
      · rw [supervisorExit_running]
        exact not_mem_mapKeys_mapDelete _ _

/-- C2, amended, at the goroutine of `world2`, whose launch has failed. -/
theorem C2_launch_failure_witness :
    Reachable exampleJoin "data" false world2 ∧
      ("x" ∈ mapKeys world2.r.running ∧ "x" ∉ mapKeys world2.r.errored) ∧
      mapGet world3.r.errored "x" = some 0 ∧
      (world3.cells 0).err = some launchError ∧
      "x" ∉ mapKeys world3.r.running :=
  have h := (C2_launch_failure exampleJoin "data" false world2 reachable_world2).2
    { id := "x", ptr := 0, pc := PC.atLock (some launchError) } (by decide)
  ⟨reachable_world2, h.1, (h.2.2 launchError rfl).1, (h.2.2 launchError rfl).2.1,
    (h.2.2 launchError rfl).2.2 world3 Relation.ReflTransGen.refl⟩

/-- C3 (exit transition): in a reachable state, for an id of the running map, `running[id]`
is the recording its goroutine captured, and the goroutine's transition with the outcome
`err` removes the id from running and clears the recording's `cmd`; with a nil `err` the id
is then in neither map, with a non-nil `err` it is in errored with that `err` as its reason;
the entries under every other id, and the recordings they point to, are unchanged. -/
theorem C3_exit_transition (join : String → String → String) (dataDir : String)
    (encode : Bool) (w : World) (h : Reachable join dataDir encode w) (id : String) (p : Ptr)
    (hid : mapGet w.r.running id = some p) (err : Option GoError) :
    (id, p) ∈ taskKeys w.tasks ∧
      id ∉ mapKeys (supervisorExit w id p err).r.running ∧
      ((supervisorExit w id p err).cells p).cmd = none ∧
      (err = none → id ∉ mapKeys (supervisorExit w id p err).r.errored) ∧
      (∀ e, err = some e → mapGet (supervisorExit w id p err).r.errored id = some p ∧
        ((supervisorExit w id p err).cells p).err = some e) ∧
      (∀ id', id' ≠ id →
        mapGet (supervisorExit w id p err).r.running id' = mapGet w.r.running id' ∧
        mapGet (supervisorExit w id p err).r.errored id' = mapGet w.r.errored id' ∧
        ∀ q, mapGet w.r.running id' = some q ∨ mapGet w.r.errored id' = some q →
          (supervisorExit w id p err).cells q = w.cells q) := by
  have hw := reachable_inv join dataDir encode w h
  have htk : (id, p) ∈ taskKeys w.tasks := hw.running_task id p (mapGet_mem _ _ _ hid)
  refine ⟨htk, ?_, supervisorExit_cells_cmd _ _ _ _, ?_, ?_, ?_⟩
  · rw [supervisorExit_running]
    exact not_mem_mapKeys_mapDelete _ _
  · intro he hmem
    rw [supervisorExit_errored, if_pos he] at hmem
    obtain ⟨q, hq⟩ := (mem_mapKeys_iff _ _).1 hmem
    exact (hw.errored_task id q hq id p htk).1 rfl
  · intro e he
    subst he
    refine ⟨?_, supervisorExit_cells_err _ _ _ _⟩
    rw [supervisorExit_errored, if_neg (by simp)]
    exact mapGet_mapSet_self _ _ _
  · intro id' hne
    refine ⟨?_, ?_, ?_⟩
    · rw [supervisorExit_running]
      exact mapGet_mapDelete_ne _ _ _ hne
    · rw [supervisorExit_errored]
      by_cases he : err = none
      · rw [if_pos he]
      · rw [if_neg he]
        exact mapGet_mapSet_ne _ _ _ _ hne
    · intro q hq
      apply supervisorExit_cells_ne
      rintro rfl
      rcases hq with hq | hq
      · exact hne (hw.task_inj id' id q (hw.running_task id' q (mapGet_mem _ _ _ hq)) htk)
      · exact (hw.errored_task id' q (mapGet_mem _ _ _ hq) id q htk).2 rfl

/-- C3 at the running recording `"x"` of `world4`, exiting with "exit status 1". -/
theorem C3_exit_transition_witness :
    mapGet world4.r.running "x" = some 0 ∧
      "x" ∉ mapKeys (supervisorExit world4 "x" 0 (some { msg := "exit status 1" })).r.running ∧
      ((supervisorExit world4 "x" 0 (some { msg := "exit status 1" })).cells 0).cmd = none ∧
      mapGet (supervisorExit world4 "x" 0 (some { msg := "exit status 1" })).r.errored "x"
        = some 0 ∧
      ((supervisorExit world4 "x" 0 (some { msg := "exit status 1" })).cells 0).err
        = some { msg := "exit status 1" } :=
  have h := C3_exit_transition exampleJoin "data" false world4 reachable_world4 "x" 0 rfl
    (some { msg := "exit status 1" })
  ⟨rfl, h.2.1, h.2.2.1, (h.2.2.2.2.1 _ rfl).1, (h.2.2.2.2.1 _ rfl).2⟩

/-- C4 (stop on an unknown id): when `id` is not a key of the running map, `Stop id` returns
the error "recording not found", calls `syscall.Kill` not at all, and leaves the state, so
both maps, as it was. -/
theorem C4_stop_unknown (w : World) (id : String) (killErr : Option GoError)
    (h : id ∉ mapKeys w.r.running) :
    (Stop w id killErr).ret = StopReturn.error "recording not found" ∧
      (Stop w id killErr).kills = [] ∧
      (Stop w id killErr).world.r.running = w.r.running ∧
      (Stop w id killErr).world.r.errored = w.r.errored ∧
      (Stop w id killErr).world = w := by
  have hg : mapGet w.r.running id = none := (mapGet_eq_none_iff _ _).2 h
  simp [Stop, hg]

/-- C4 at an id that is a key of the errored map and not of the running map. -/
theorem C4_stop_unknown_witness :
    "x" ∈ mapKeys world3.r.errored ∧ "x" ∉ mapKeys world3.r.running ∧
      ((Stop world3 "x" none).ret = StopReturn.error "recording not found" ∧
        (Stop world3 "x" none).kills = [] ∧
        (Stop world3 "x" none).world.r.running = world3.r.running ∧
        (Stop world3 "x" none).world.r.errored = world3.r.errored ∧
        (Stop world3 "x" none).world = world3) :=
  ⟨by decide, by decide, C4_stop_unknown world3 "x" none (by decide)⟩

/-- C5 (idempotent dismiss): `RemoveError id` is total; afterwards `id` is not a key of
errored; a second `RemoveError id` gives the state of the first; when `id` was not a key of
errored the state is unchanged; the running map, the other errored entries and the
recordings themselves are untouched. -/
theorem C5_removeError (w : World) (id : String) :
    id ∉ mapKeys (RemoveError w id).r.errored ∧
      RemoveError (RemoveError w id) id = RemoveError w id ∧
      (id ∉ mapKeys w.r.errored → RemoveError w id = w) ∧
      (RemoveError w id).r.running = w.r.running ∧
      (∀ id', id' ≠ id → mapGet (RemoveError w id).r.errored id' = mapGet w.r.errored id') ∧
      (RemoveError w id).cells = w.cells := by
  refine ⟨not_mem_mapKeys_mapDelete _ _, ?_, RemoveError_of_not_mem w id, rfl, ?_, rfl⟩
  · exact RemoveError_of_not_mem _ _ (not_mem_mapKeys_mapDelete _ _)
  · intro id' h
    exact mapGet_mapDelete_ne _ _ _ h

/-- C5 at the dismissal of the failed recording `"x"`, and at an id that is no key. -/
theorem C5_removeError_witness :
    "x" ∈ mapKeys world3.r.errored ∧ "x" ∉ mapKeys (RemoveError world3 "x").r.errored ∧
      RemoveError (RemoveError world3 "x") "x" = RemoveError world3 "x" ∧
      RemoveError world3 "y" = world3 :=
  ⟨by decide, (C5_removeError world3 "x").1, (C5_removeError world3 "x").2.1,
    (C5_removeError world3 "y").2.2.1 (by decide)⟩

/-- C6 (stop does not remove): for an id in the running map and either outcome of the signal
delivery, the maps after `Stop id` are those before and `id` is still a key of running.
When the recording has its process, `Stop` sends SIGINT to the process group and returns nil
if the delivery succeeds and the error "cannot abort recording" if it fails. -/
theorem C6_stop_keeps (w : World) (id : String) (killErr : Option GoError)
    (h : id ∈ mapKeys w.r.running) :
    (Stop w id killErr).world.r.running = w.r.running ∧
      (Stop w id killErr).world.r.errored = w.r.errored ∧
      id ∈ mapKeys (Stop w id killErr).world.r.running ∧
      (∀ p c proc, mapGet w.r.running id = some p → (w.cells p).cmd = some c →
        c.Process = some proc →
        (Stop w id killErr).kills = [(-proc.Pid, SIGINT)] ∧
        (Stop w id killErr).ret =
          if killErr = none then StopReturn.ok else StopReturn.error "cannot abort recording") := by
  rw [Stop_world]
  refine ⟨rfl, rfl, h, ?_⟩
  intro p c proc hp hc hproc
  cases killErr <;> simp [Stop, hp, hc, hproc]

/-- C6 at a running recording whose process is 4242, with the signal delivery failing. -/
theorem C6_stop_keeps_witness :
    "x" ∈ mapKeys world4.r.running ∧
      (Stop world4 "x" (some { msg := "no such process" })).world.r.running
        = world4.r.running ∧
      (Stop world4 "x" (some { msg := "no such process" })).world.r.errored
        = world4.r.errored ∧
      "x" ∈ mapKeys (Stop world4 "x" (some { msg := "no such process" })).world.r.running ∧
      (Stop world4 "x" (some { msg := "no such process" })).kills = [(-4242, SIGINT)] ∧
      (Stop world4 "x" (some { msg := "no such process" })).ret
        = StopReturn.error "cannot abort recording" :=
  have h := C6_stop_keeps world4 "x" (some { msg := "no such process" }) (by decide)
  ⟨by decide, h.1, h.2.1, h.2.2.1, (h.2.2.2 0 _ { Pid := 4242 } rfl rfl rfl).1,
    (h.2.2.2 0 _ { Pid := 4242 } rfl rfl rfl).2⟩

/-- C7, as stated, fails: with the clock read at 12:00:00.999999999 on line 43 and at
12:00:01 on line 44, the recording `Record` registers under `"x"` has the file name
`carol_20200102_120000.ts`, which is not its `startTime` rendered. -/
theorem C7_filename_counterexample :
    mapGet world1.r.running "x" = some 0 ∧
      (world1.cells 0).filename = "carol_20200102_120000.ts" ∧
      (world1.cells 0).startTime.Format20060102_150405 = "20200102_120001" ∧
      (world1.cells 0).filename ≠
        "carol" ++ "_" ++ (world1.cells 0).startTime.Format20060102_150405 ++ ".ts" :=
  ⟨rfl, by decide, by decide, by decide⟩

/-- C7, amended (file name format): the recording `Record` registers under the new id has
the file name `channel ++ "_" ++ stamp ++ ".ts"`, where `stamp` renders, as YYYYMMDD_HHMMSS,
the clock reading of line 43; its `startTime` is the reading of line 44; so the file name is
a function of the channel and the first reading only, and it carries the rendering of
`startTime` whenever the two readings lie in the same second. -/
theorem C7_filename (join : String → String → String) (w : World) (channel : String)
    (now1 now2 : Time) (id : String) :
    mapGet (Record join w channel now1 now2 id).r.running id = some w.next ∧
      ((Record join w channel now1 now2 id).cells w.next).filename =
        channel ++ "_" ++ now1.Format20060102_150405 ++ ".ts" ∧
      ((Record join w channel now1 now2 id).cells w.next).startTime = now2 ∧
      (now1.year = now2.year ∧ now1.month = now2.month ∧ now1.day = now2.day ∧
          now1.hour = now2.hour ∧ now1.minute = now2.minute ∧ now1.second = now2.second →
        ((Record join w channel now1 now2 id).cells w.next).filename =
          channel ++ "_" ++
            ((Record join w channel now1 now2 id).cells w.next).startTime.Format20060102_150405
            ++ ".ts") := by
  refine ⟨mapGet_mapSet_self _ _ _, ?_, ?_, ?_⟩
  · simp [Record, setCell]
  · simp [Record, setCell]
  · rintro ⟨h1, h2, h3, h4, h5, h6⟩
    simp [Record, setCell, Time.Format20060102_150405, h1, h2, h3, h4, h5, h6]

/-- C7, amended, at two readings within one second. -/
theorem C7_filename_witness :
    ((Record exampleJoin world0 "carol" exampleNow1 { exampleNow1 with nsec := 0 } "x").cells
        world0.next).filename =
      "carol" ++ "_" ++
        ((Record exampleJoin world0 "carol" exampleNow1 { exampleNow1 with nsec := 0 } "x").cells
          world0.next).startTime.Format20060102_150405 ++ ".ts" :=
  (C7_filename exampleJoin world0 "carol" exampleNow1 { exampleNow1 with nsec := 0 } "x").2.2.2
    ⟨rfl, rfl, rfl, rfl, rfl, rfl⟩

/-- C8 (capture command line): the recording `Record` registers runs `/bin/bash -c` in a
process group of its own, on the command line
`streamlink https://twitch.tv/<channel> best -O | ffmpeg -i pipe:0 -ss 00:00:20.0 <V> -acodec copy "<path>"`,
where `<path>` is the data directory joined with the file name and `<V>` is `-vcodec copy`
when the flag is false and `-vcodec libx265 -crf 28` when it is true; nothing else of the
line depends on the flag. -/
theorem C8_cmdline (join : String → String → String) (w : World) (channel : String)
    (now1 now2 : Time) (id : String) :
    mapGet (Record join w channel now1 now2 id).r.running id = some w.next ∧
      ((Record join w channel now1 now2 id).cells w.next).cmd =
        some
          { Path := "/bin/bash"
            Args := ["/bin/bash", "-c",
              "streamlink https://twitch.tv/" ++ channel ++
                " best -O | ffmpeg -i pipe:0 -ss 00:00:20.0 " ++
                (if w.r.encode = true then "-vcodec libx265 -crf 28" else "-vcodec copy") ++
                " -acodec copy \"" ++
                join w.r.dataDir
                  ((Record join w channel now1 now2 id).cells w.next).filename ++ "\""]
            SysProcAttr := some { Setpgid := true }
            Process := none } := by
  refine ⟨mapGet_mapSet_self _ _ _, ?_⟩
  simp [Record, setCell, Command]

/-- C9 fails on the code: in `world1`, the state in which `Record("carol")` has returned and
the goroutine has not yet run `cmd.Start()`, and in `world2`, where that launch has failed,
the id `"x"` is a key of running, its recording has a `cmd` whose `Process` is nil, and
`Stop("x")` dereferences that nil: it panics and sends no signal. -/
theorem C9_stop_before_launch :
    Reachable exampleJoin "data" false world1 ∧
      mapGet world1.r.running "x" = some 0 ∧
      (world1.cells 0).cmd ≠ none ∧
      (world1.cells 0).cmd.bind Cmd.Process = none ∧
      (Stop world1 "x" none).ret = StopReturn.nilDereference ∧
      (Stop world1 "x" none).kills = [] ∧
      Reachable exampleJoin "data" false world2 ∧
      mapGet world2.r.running "x" = some 0 ∧
      (world2.cells 0).cmd.bind Cmd.Process = none ∧
      (Stop world2 "x" none).ret = StopReturn.nilDereference :=
  ⟨reachable_world1, rfl, by decide, rfl, rfl, rfl, reachable_world2, rfl, rfl, rfl⟩

/-- C10, as stated, fails: in the reachable state `world3` the id `"x"` is a key of the
errored map, and a call of `buildModel` that cannot list the data directory returns the
error "cannot list directory" with the empty model, so with no Failures row for `"x"`. -/
theorem C10_failed_well_formed_counterexample :
    Reachable exampleJoin "data" false world3 ∧
      "x" ∈ mapKeys world3.r.errored ∧
      buildModel unreadableEnv exampleCli world3 =
        BuildReturn.error
          { Recordings := [], Failures := [], Files := [], CanTranscode := false }
          { msg := "cannot list directory: open data: no such file or directory" } :=
  ⟨reachable_world3, by decide, by decide⟩

/-- C10, amended (failed entries are well-formed): in every reachable state every recording
of the errored map has a non-nil `err` and a nil `cmd`, so `buildModel` never evaluates
`rec.err.Error()` on a nil `err`.  When its directory listing fails, `buildModel` returns the
error "cannot list directory" and the empty model.  When the listing succeeds, it returns a
model whose Failures hold one row per errored id, in the order `range` visits the map: the
ids of the rows are the keys of errored rearranged, without repetition, every errored id has
its row carrying the `Error()` text of its recording's `err`, and every row is such a row. -/
theorem C10_failed_well_formed (join : String → String → String) (dataDir : String)
    (encode : Bool) (w : World) (h : Reachable join dataDir encode w)
    (env : BuildEnv) (cli : Cli) (hperm : (env.rangeOrder w.r.errored).Perm w.r.errored) :
    (∀ id p, mapGet w.r.errored id = some p →
      (w.cells p).err ≠ none ∧ (w.cells p).cmd = none) ∧
    buildModel env cli w ≠ BuildReturn.nilDereference ∧
    (∀ err, env.readDir cli.DataDir = Except.error err →
      buildModel env cli w =
        BuildReturn.error Model.zero { msg := "cannot list directory: " ++ err.msg }) ∧
    (∀ files, env.readDir cli.DataDir = Except.ok files →
      ∃ model, buildModel env cli w = BuildReturn.ok model ∧
        (model.Failures.map FailureModel.Id).Perm (mapKeys w.r.errored) ∧
        (model.Failures.map FailureModel.Id).Nodup ∧
        (∀ id p, mapGet w.r.errored id = some p → ∃ e, (w.cells p).err = some e ∧
          { Id := id, Name := (w.cells p).filename, Time := env.rfc1123 (w.cells p).startTime,
            Reason := e.msg } ∈ model.Failures) ∧
        ∀ row, row ∈ model.Failures → ∃ p e, mapGet w.r.errored row.Id = some p ∧
          (w.cells p).err = some e ∧ row.Name = (w.cells p).filename ∧
          row.Time = env.rfc1123 (w.cells p).startTime ∧ row.Reason = e.msg) := by
  have hw := reachable_inv join dataDir encode w h
  have hsub : ∀ id p, (id, p) ∈ env.rangeOrder w.r.errored → (id, p) ∈ w.r.errored :=
    fun id p hp => hperm.mem_iff.1 hp
  obtain ⟨rows, h1, h2, h3, h4⟩ :=
    failureRows_spec env.rfc1123 w.cells (env.rangeOrder w.r.errored)
      (fun id p hp => hw.errored_err id p (hsub id p hp))
  have hkeys : (rows.map FailureModel.Id).Perm (mapKeys w.r.errored) := by
    rw [h2]
    exact hperm.map Prod.fst
  refine ⟨fun id p hp => ⟨hw.errored_err id p (mapGet_mem _ _ _ hp),
    hw.errored_cmd id p (mapGet_mem _ _ _ hp)⟩, ?_, ?_, ?_⟩
  · unfold buildModel
    cases env.readDir cli.DataDir with
    | error err => simp
    | ok files => simp [h1]
  · intro err herr
    simp [buildModel, herr]
  · intro files hfiles
    refine ⟨{ Recordings := recordingRows env w.cells (env.rangeOrder w.r.running) 0,
              Failures := rows, Files := fileRows env files,
              CanTranscode := !cli.NoEncode }, ?_, hkeys, ?_, ?_, ?_⟩
    · simp only [buildModel, hfiles, h1]
    · exact hkeys.nodup_iff.2 hw.errored_nodup
    · intro id p hp
      exact h3 id p (hperm.mem_iff.2 (mapGet_mem _ _ _ hp))
    · intro row hrow
      obtain ⟨id, p, e, hmem, he, rfl⟩ := h4 row hrow
      exact ⟨p, e, mapGet_of_mem _ _ _ hw.errored_nodup (hsub id p hmem), he, rfl, rfl, rfl⟩

/-- C10, amended, at the state with the one failed recording `"x"` and a readable data
directory: the model has the one row for `"x"`, carrying the launch error. -/
theorem C10_failed_well_formed_witness :
    Reachable exampleJoin "data" false world3 ∧
      (readableEnv.rangeOrder world3.r.errored).Perm world3.r.errored ∧
      ((world3.cells 0).err ≠ none ∧ (world3.cells 0).cmd = none) ∧
      buildModel readableEnv exampleCli world3 ≠ BuildReturn.nilDereference ∧
      buildModel readableEnv exampleCli world3 =
        BuildReturn.ok
          { Recordings := []
            Failures := [{ Id := "x", Name := "carol_20200102_120000.ts",
                           Time := "Thu, 02 Jan 2020 12:00:01 UTC",
                           Reason := "fork/exec /bin/bash: no such file or directory" }]
            Files := []
            CanTranscode := true } :=
  have h := C10_failed_well_formed exampleJoin "data" false world3 reachable_world3
    readableEnv exampleCli (List.Perm.refl _)
  ⟨reachable_world3, List.Perm.refl _, h.1 "x" 0 rfl, h.2.1, by decide⟩

end StreaMan
